import Mathlib

/-!
Shallow embedding of `get_vendor_summary.py` (vendor performance ETL).

The program has two functions:

* `create_vendor_summary (conn)` — runs one SQL aggregation query
  (three CTE stages: `freightsummary`, `purchase_summary`, `sales_summary`,
  combined with two LEFT JOINs and an ORDER BY) and returns the resulting
  table; any error during query execution is caught and an empty table
  is returned.
* `clean_vendor_summary (df)` — pandas post-processing: an empty-input
  fast path, `pd.to_numeric` coercion of `Volume`, a blanket
  `fillna(0)`, four derived columns (`gross_profit`, `gross_margin`,
  `stock_turnover`, `sales_purchase_ratio`) with `replace(0, np.nan)`
  guarding each divisor, and `except` clauses that return the table on
  `KeyError` (missing column) or any other exception.

Numbers are modelled as `ℚ`.  A pandas cell is `Option Value`: `none` is
NaN/null (pandas treats NaN as missing), `Value.num` a number,
`Value.str` a string, `Value.inf` the float infinity that a true
divide-by-zero would produce (pandas `x / 0.0` is `±inf` for `x ≠ 0`;
the sign is irrelevant to every property below, which only distinguish
null from non-null).
-/

/-- A non-null pandas cell value. -/
inductive Value where
  | num (q : ℚ)
  | str (s : String)
  | inf
deriving DecidableEq

/-- A pandas cell: `none` is NaN/null. -/
abbrev Cell := Option Value

/-- Value of a list of decimal digit characters, `none` if empty or if a
non-digit occurs. -/
def digitsVal? (cs : List Char) : Option ℕ :=
  if cs.isEmpty then none
  else cs.foldl (fun acc c =>
    acc.bind fun n => if c.isDigit then some (10 * n + (c.toNat - 48)) else none)
    (some 0)

/-- Split a character list at the first dot: integer part and, when a dot
occurs, the fractional part. -/
def breakDot : List Char → List Char × Option (List Char)
  | [] => ([], none)
  | c :: cs =>
    if c = '.' then ([], some cs)
    else
      let p := breakDot cs
      (c :: p.1, p.2)

/-- Numeric parse of a string, as `pd.to_numeric(·, errors="coerce")`
applies to text: optional sign, digits, optional fractional digits.
(pandas also accepts scientific notation and surrounding whitespace;
no property below depends on the parse grammar.) -/
def parseNumStr (s : String) : Option ℚ :=
  let cs := s.data
  let signed : Bool × List Char :=
    match cs with
    | '-' :: rest => (true, rest)
    | '+' :: rest => (false, rest)
    | _ => (false, cs)
  let withSign : ℚ → ℚ := fun q => if signed.1 then -q else q
  match breakDot signed.2 with
  | (ip, none) => (digitsVal? ip).map fun n => withSign n
  | (ip, some fp) =>
    match digitsVal? ip, digitsVal? fp with
    | some n, some f => some (withSign ((n : ℚ) + (f : ℚ) / (10 : ℚ) ^ fp.length))
    | _, _ => none

/-- `pd.to_numeric(·, errors="coerce")` on one cell: numbers pass through,
numeric text parses, non-numeric text coerces to NaN, NaN stays NaN. -/
def toNumericCell : Cell → Cell
  | some (Value.num q) => some (Value.num q)
  | some (Value.str s) => (parseNumStr s).map Value.num
  | some Value.inf => some Value.inf
  | none => none

/-- `.replace(0, np.nan)` on one cell. -/
def replace0 : Cell → Cell
  | some (Value.num q) => if q = 0 then none else some (Value.num q)
  | c => c

/-- Row-wise subtraction of two cells, as pandas `Series` subtraction on
the numeric columns it is applied to here: NaN propagates.  (On
non-numeric operands pandas would raise `TypeError`; in this pipeline the
operands are SQL `SUM` columns and the output of the null fill, so only
numbers and NaN occur there.) -/
def csub : Cell → Cell → Cell
  | some (Value.num a), some (Value.num b) => some (Value.num (a - b))
  | _, _ => none

/-- Row-wise division of two cells, as pandas float division: NaN
propagates; a zero divisor gives NaN for a zero numerator (`0.0/0.0`)
and infinity otherwise (`x/0.0`, `x ≠ 0`). -/
def cdiv : Cell → Cell → Cell
  | some (Value.num a), some (Value.num b) =>
    if b = 0 then (if a = 0 then none else some Value.inf)
    else some (Value.num (a / b))
  | _, _ => none

/-- The column names occurring in this pipeline: the 14 columns of the
SQL query's SELECT list plus the 4 derived columns the Enricher adds. -/
inductive Col where
  | VendorNumber
  | VendorName
  | Brand
  | PurchasePrice
  | description
  | Volume
  | actual_price
  | total_quantity
  | total_dollars
  | total_sales_quantity
  | total_sales_dollars
  | total_sales_price
  | total_excise_tax
  | freight_cost
  | gross_profit
  | gross_margin
  | stock_turnover
  | sales_purchase_ratio
deriving DecidableEq

/-- A pandas DataFrame: its column list and its rows.  A row is a cell
for every column name; only the cells at columns in `cols` are part of
the frame. -/
structure DataFrame where
  cols : List Col
  rows : List (Col → Cell)

/-- `df.empty`: true when either axis has length zero. -/
def DataFrame.empty (df : DataFrame) : Bool :=
  df.rows.isEmpty || df.cols.isEmpty

/-- Overwrite one cell of a row (the row-level effect of a pandas column
assignment). -/
def assignCell (c : Col) (v : Cell) (r : Col → Cell) : Col → Cell :=
  fun c2 => if c2 = c then v else r c2

/-- `df[c] = <series computed row-wise from df>`: adds the column if
absent and sets each row's cell at `c` from that row. -/
def setCol (df : DataFrame) (c : Col) (f : (Col → Cell) → Cell) : DataFrame where
  cols := if c ∈ df.cols then df.cols else df.cols ++ [c]
  rows := df.rows.map fun r => assignCell c (f r) r

/-- The row-level effect of `df.fillna(0, inplace=True)`: every null cell
of an actual column becomes the number 0. -/
def fillRow (cols : List Col) (r : Col → Cell) : Col → Cell :=
  fun c => if c ∈ cols ∧ r c = none then some (Value.num 0) else r c

/-- `df.fillna(0, inplace=True)`. -/
def fillna0 (df : DataFrame) : DataFrame where
  cols := df.cols
  rows := df.rows.map (fillRow df.cols)

/-- `clean_vendor_summary` of `get_vendor_summary.py`.

The `try` block reads columns in this order: `Volume` (line 122);
`total_sales_dollars` and `total_dollars` (line 126); `gross_profit`
and `total_sales_dollars` (line 129, both present by then);
`total_sales_quantity` and `total_quantity` (line 130);
`total_sales_dollars` and `total_dollars` (line 131, both present by
then).  A read of a missing column raises `KeyError`, caught by the
`except` clause, which returns the DataFrame in its state at that
point (the earlier assignments were made in place). -/
def clean_vendor_summary (df : DataFrame) : DataFrame :=
  if df.empty then df
  else if Col.Volume ∈ df.cols then
    let df1 := setCol df Col.Volume fun r => toNumericCell (r Col.Volume)
    let df2 := fillna0 df1
    if Col.total_sales_dollars ∈ df2.cols ∧ Col.total_dollars ∈ df2.cols then
      let df3 := setCol df2 Col.gross_profit fun r =>
        csub (r Col.total_sales_dollars) (r Col.total_dollars)
      let df4 := setCol df3 Col.gross_margin fun r =>
        cdiv (r Col.gross_profit) (replace0 (r Col.total_sales_dollars))
      if Col.total_sales_quantity ∈ df4.cols ∧ Col.total_quantity ∈ df4.cols then
        let df5 := setCol df4 Col.stock_turnover fun r =>
          cdiv (r Col.total_sales_quantity) (replace0 (r Col.total_quantity))
        let df6 := setCol df5 Col.sales_purchase_ratio fun r =>
          cdiv (r Col.total_sales_dollars) (replace0 (r Col.total_dollars))
        df6
      else df4
    else df2
  else df

@[simp] theorem fillna0_cols (df : DataFrame) : (fillna0 df).cols = df.cols := rfl

@[simp] theorem fillna0_rows (df : DataFrame) :
    (fillna0 df).rows = df.rows.map (fillRow df.cols) := rfl

@[simp] theorem setCol_rows (df : DataFrame) (c : Col) (f : (Col → Cell) → Cell) :
    (setCol df c f).rows = df.rows.map fun r => assignCell c (f r) r := rfl

theorem setCol_cols_of_mem (df : DataFrame) (c : Col) (f : (Col → Cell) → Cell)
    (h : c ∈ df.cols) : (setCol df c f).cols = df.cols := by
  simp [setCol, h]

theorem setCol_cols_of_not_mem (df : DataFrame) (c : Col) (f : (Col → Cell) → Cell)
    (h : c ∉ df.cols) : (setCol df c f).cols = df.cols ++ [c] := by
  simp [setCol, h]

@[simp] theorem assignCell_same (c : Col) (v : Cell) (r : Col → Cell) :
    assignCell c v r c = v := by simp [assignCell]

theorem assignCell_ne (c c2 : Col) (v : Cell) (r : Col → Cell) (h : c2 ≠ c) :
    assignCell c v r c2 = r c2 := by simp [assignCell, h]

/-!  The Aggregator: the SQL query of `create_vendor_summary`.

Source tables, with the columns the query reads.  Amounts and prices are
`ℚ`, identifiers `ℤ`.  `Volume` in the price reference is `Value`
(stored as text in the inventory database, hence the `pd.to_numeric`
coercion in the Enricher). -/

structure PurchaseRow where
  VendorNumber : ℤ
  VendorName : String
  Brand : ℤ
  PurchasePrice : ℚ
  description : String
  Quantity : ℚ
  Dollars : ℚ

structure PriceRow where
  Brand : ℤ
  Volume : Value
  Price : ℚ

structure SaleRow where
  VendorNo : ℤ
  Brand : ℤ
  SalesQuantity : ℚ
  SalesDollars : ℚ
  SalesPrice : ℚ
  ExciseTax : ℚ

structure FreightRow where
  vendorNumber : ℤ
  Freight : ℚ

/-- The source store: the four tables the query reads. -/
structure Database where
  purchases : List PurchaseRow
  purchase_prices : List PriceRow
  sales : List SaleRow
  vendor_invoice : List FreightRow

/-- `purchases p JOIN purchase_prices pp ON p.Brand = pp.Brand WHERE
p.PurchasePrice > 0`: the joined row multiset feeding `purchase_summary`. -/
def joined (db : Database) : List (PurchaseRow × PriceRow) :=
  (db.purchases.flatMap fun p =>
    (db.purchase_prices.filter fun pp => pp.Brand = p.Brand).map fun pp => (p, pp)).filter
    fun x => 0 < x.1.PurchasePrice

/-- The GROUP BY key of `purchase_summary`:
`p.VendorNumber, p.VendorName, p.Brand`. -/
def pKey (x : PurchaseRow × PriceRow) : ℤ × String × ℤ :=
  (x.1.VendorNumber, x.1.VendorName, x.1.Brand)

/-- One representative per group key, in first-occurrence order (SQLite's
bare columns under GROUP BY take their value from one row of the group). -/
def firstByKey {α κ : Type} [DecidableEq κ] : List α → (α → κ) → List α
  | [], _ => []
  | x :: xs, k => x :: firstByKey (xs.filter fun y => k y ≠ k x) k
termination_by l _ => l.length
decreasing_by simpa using Nat.lt_succ_of_le (List.length_filter_le _ _)

/-- A row of the `purchase_summary` CTE. -/
structure PSRow where
  VendorNumber : ℤ
  VendorName : String
  Brand : ℤ
  PurchasePrice : ℚ
  description : String
  Volume : Value
  actual_price : ℚ
  total_quantity : ℚ
  total_dollars : ℚ

/-- The `purchase_summary` row of one group: bare columns from the
group's representative row `x`, `SUM(p.Quantity)` and `SUM(p.Dollars)`
over the group's joined rows. -/
def psRowOf (j : List (PurchaseRow × PriceRow)) (x : PurchaseRow × PriceRow) : PSRow where
  VendorNumber := x.1.VendorNumber
  VendorName := x.1.VendorName
  Brand := x.1.Brand
  PurchasePrice := x.1.PurchasePrice
  description := x.1.description
  Volume := x.2.Volume
  actual_price := x.2.Price
  total_quantity := ((j.filter fun y => pKey y = pKey x).map fun y => y.1.Quantity).sum
  total_dollars := ((j.filter fun y => pKey y = pKey x).map fun y => y.1.Dollars).sum

/-- The `purchase_summary` CTE: one `psRowOf` row per distinct group
key of the joined, price-filtered purchase rows. -/
def purchase_summary (db : Database) : List PSRow :=
  (firstByKey (joined db) pKey).map (psRowOf (joined db))

/-- The `sales_summary` CTE, as the lookup the LEFT JOIN performs: the
group of sales rows with key `(v, b)`, or `none` when there is none
(the join then leaves the sales columns NULL).  The quadruple is
`(SUM(SalesQuantity), SUM(SalesDollars), SUM(SalesPrice), SUM(ExciseTax))`. -/
def sales_lookup (db : Database) (v b : ℤ) : Option (ℚ × ℚ × ℚ × ℚ) :=
  let g := db.sales.filter fun s => s.VendorNo = v ∧ s.Brand = b
  if g.isEmpty then none
  else some ((g.map SaleRow.SalesQuantity).sum, (g.map SaleRow.SalesDollars).sum,
    (g.map SaleRow.SalesPrice).sum, (g.map SaleRow.ExciseTax).sum)

/-- The `freightsummary` CTE, as the lookup the LEFT JOIN performs:
`SUM(Freight)` over the vendor's invoice rows, or `none` when the vendor
has none. -/
def freight_lookup (db : Database) (v : ℤ) : Option ℚ :=
  let g := db.vendor_invoice.filter fun f => f.vendorNumber = v
  if g.isEmpty then none else some ((g.map FreightRow.Freight).sum)

/-- A row of the final SELECT: `purchase_summary` columns plus the
LEFT-JOINed sales aggregates and freight cost (nullable). -/
structure SummaryRow where
  VendorNumber : ℤ
  VendorName : String
  Brand : ℤ
  PurchasePrice : ℚ
  description : String
  Volume : Value
  actual_price : ℚ
  total_quantity : ℚ
  total_dollars : ℚ
  total_sales_quantity : Option ℚ
  total_sales_dollars : Option ℚ
  total_sales_price : Option ℚ
  total_excise_tax : Option ℚ
  freight_cost : Option ℚ

/-- The two LEFT JOINs of the final SELECT, applied to one
`purchase_summary` row. -/
def combine (db : Database) (ps : PSRow) : SummaryRow :=
  let s := sales_lookup db ps.VendorNumber ps.Brand
  { VendorNumber := ps.VendorNumber
    VendorName := ps.VendorName
    Brand := ps.Brand
    PurchasePrice := ps.PurchasePrice
    description := ps.description
    Volume := ps.Volume
    actual_price := ps.actual_price
    total_quantity := ps.total_quantity
    total_dollars := ps.total_dollars
    total_sales_quantity := s.map fun t => t.1
    total_sales_dollars := s.map fun t => t.2.1
    total_sales_price := s.map fun t => t.2.2.1
    total_excise_tax := s.map fun t => t.2.2.2
    freight_cost := freight_lookup db ps.VendorNumber }

/-- `ORDER BY p.VendorNumber, p.Brand`: the comparison the final sort
uses (lexicographic on the pair; rows tied on it keep their relative
order, as the ORDER BY leaves their order unspecified and the sort here
is stable). -/
def psLe (a b : PSRow) : Prop :=
  toLex (a.VendorNumber, a.Brand) ≤ toLex (b.VendorNumber, b.Brand)

instance : DecidableRel psLe := fun a b =>
  inferInstanceAs (Decidable (toLex (a.VendorNumber, a.Brand) ≤ toLex (b.VendorNumber, b.Brand)))

instance : IsTotal PSRow psLe :=
  ⟨fun a b => le_total (toLex (a.VendorNumber, a.Brand)) (toLex (b.VendorNumber, b.Brand))⟩

instance : IsTrans PSRow psLe :=
  ⟨fun _ _ _ h1 h2 => le_trans h1 h2⟩

/-- The whole SQL query: `purchase_summary`, LEFT JOINed to
`sales_summary` and `freightsummary`, ordered by
`(VendorNumber, Brand)`. -/
def vendor_summary_query (db : Database) : List SummaryRow :=
  (List.insertionSort psLe (purchase_summary db)).map (combine db)

/-- The connection handed to `create_vendor_summary`: either a readable
store, or one whose query execution fails (malformed query, connection
fault, schema mismatch — any `Exception` with a message). -/
inductive Conn where
  | ok (db : Database)
  | faulty (msg : String)

/-- `pd.read_sql_query(sql_query, conn)`: the query's result, or the
raised exception. -/
def read_sql_query : Conn → Except String (List SummaryRow)
  | Conn.ok db => Except.ok (vendor_summary_query db)
  | Conn.faulty msg => Except.error msg

/-- `create_vendor_summary` of `get_vendor_summary.py`: the query result;
on any exception from query execution, an empty table (`pd.DataFrame()`). -/
def create_vendor_summary (c : Conn) : List SummaryRow :=
  match read_sql_query c with
  | Except.ok t => t
  | Except.error _ => []

/-! Helper lemmas about the cell operations and the Enricher's steps. -/

theorem cdiv_none_right (a : Cell) : cdiv a none = none := by
  cases a with
  | none => rfl
  | some v => cases v <;> rfl

theorem cdiv_none_left (b : Cell) : cdiv none b = none := rfl

theorem replace0_zero : replace0 (some (Value.num 0)) = none := by
  simp [replace0]

theorem replace0_num_ne (q : ℚ) (h : q ≠ 0) :
    replace0 (some (Value.num q)) = some (Value.num q) := by
  simp [replace0, h]

/-- The expected columns the Enricher reads, all present. -/
def hasExpected (df : DataFrame) : Prop :=
  Col.Volume ∈ df.cols ∧ Col.total_sales_dollars ∈ df.cols ∧
    Col.total_dollars ∈ df.cols ∧ Col.total_sales_quantity ∈ df.cols ∧
    Col.total_quantity ∈ df.cols

/-- A cell that is null or a number (what an SQL `SUM` column holds). -/
def numCell (c : Cell) : Prop :=
  c = none ∨ ∃ q, c = some (Value.num q)

/-- The four aggregate columns the derived metrics divide or subtract
hold only numbers or nulls (they are `SUM`s in the query). -/
def numericSource (df : DataFrame) : Prop :=
  ∀ r ∈ df.rows,
    numCell (r Col.total_sales_dollars) ∧ numCell (r Col.total_dollars) ∧
      numCell (r Col.total_sales_quantity) ∧ numCell (r Col.total_quantity)

/-- The input does not already carry the derived columns (true of the
Aggregator's output, whose SELECT list does not contain them). -/
def noDerived (df : DataFrame) : Prop :=
  Col.gross_profit ∉ df.cols ∧ Col.gross_margin ∉ df.cols ∧
    Col.stock_turnover ∉ df.cols ∧ Col.sales_purchase_ratio ∉ df.cols

/-- A row after the coercion of `Volume` and the null fill (lines
122–123), before the derived columns. -/
def preRow (cols : List Col) (r : Col → Cell) : Col → Cell :=
  fillRow cols (assignCell Col.Volume (toNumericCell (r Col.Volume)) r)

/-- A row after the whole successful `try` block: `preRow` plus the four
derived cells of lines 126–131. -/
def enrichRow (cols : List Col) (r : Col → Cell) : Col → Cell :=
  let r2 := preRow cols r
  let r3 := assignCell Col.gross_profit
    (csub (r2 Col.total_sales_dollars) (r2 Col.total_dollars)) r2
  let r4 := assignCell Col.gross_margin
    (cdiv (r3 Col.gross_profit) (replace0 (r3 Col.total_sales_dollars))) r3
  let r5 := assignCell Col.stock_turnover
    (cdiv (r4 Col.total_sales_quantity) (replace0 (r4 Col.total_quantity))) r4
  assignCell Col.sales_purchase_ratio
    (cdiv (r5 Col.total_sales_dollars) (replace0 (r5 Col.total_dollars))) r5

theorem cols_subset_setCol (df : DataFrame) (c : Col) (f : (Col → Cell) → Cell) :
    df.cols ⊆ (setCol df c f).cols := by
  by_cases h : c ∈ df.cols
  · rw [setCol_cols_of_mem _ _ _ h]
    exact fun _ hx => hx
  · rw [setCol_cols_of_not_mem _ _ _ h]
    exact List.subset_append_left _ _

theorem mem_setCol_cols (df : DataFrame) (c c2 : Col) (f : (Col → Cell) → Cell) :
    c ∈ (setCol df c2 f).cols ↔ c ∈ df.cols ∨ c = c2 := by
  by_cases h : c2 ∈ df.cols
  · rw [setCol_cols_of_mem _ _ _ h]
    constructor
    · exact Or.inl
    · rintro (hc | rfl)
      · exact hc
      · exact h
  · rw [setCol_cols_of_not_mem _ _ _ h]
    simp

/-- On the success path (non-empty input, all expected columns present)
the Enricher maps `enrichRow` over the rows. -/
theorem clean_success_rows (df : DataFrame) (hne : df.empty = false)
    (hexp : hasExpected df) :
    (clean_vendor_summary df).rows = df.rows.map (enrichRow df.cols) := by
  obtain ⟨hV, hS1, hS2, hQ1, hQ2⟩ := hexp
  unfold clean_vendor_summary
  rw [if_neg (by simp [hne]), if_pos hV]
  have hc2 : (fillna0 (setCol df Col.Volume fun r => toNumericCell (r Col.Volume))).cols
      = df.cols := by
    rw [fillna0_cols, setCol_cols_of_mem _ _ _ hV]
  rw [if_pos (by rw [hc2]; exact ⟨hS1, hS2⟩)]
  rw [if_pos ⟨cols_subset_setCol _ _ _ (cols_subset_setCol _ _ _ (by rw [hc2]; exact hQ1)),
    cols_subset_setCol _ _ _ (cols_subset_setCol _ _ _ (by rw [hc2]; exact hQ2))⟩]
  simp only [setCol_rows, fillna0_rows, List.map_map, hc2,
    setCol_cols_of_mem _ _ _ hV, fillna0_cols]
  rfl

/-- On the success path the result's columns are the input's followed by
the four derived columns (when those were not already present). -/
theorem clean_success_cols (df : DataFrame) (hne : df.empty = false)
    (hexp : hasExpected df) (hnd : noDerived df) :
    (clean_vendor_summary df).cols =
      df.cols ++ [Col.gross_profit, Col.gross_margin, Col.stock_turnover,
        Col.sales_purchase_ratio] := by
  obtain ⟨hV, hS1, hS2, hQ1, hQ2⟩ := hexp
  obtain ⟨hgp, hgm, hst, hspr⟩ := hnd
  unfold clean_vendor_summary
  rw [if_neg (by simp [hne]), if_pos hV]
  have hc2 : (fillna0 (setCol df Col.Volume fun r => toNumericCell (r Col.Volume))).cols
      = df.cols := by
    rw [fillna0_cols, setCol_cols_of_mem _ _ _ hV]
  rw [if_pos (by rw [hc2]; exact ⟨hS1, hS2⟩)]
  rw [if_pos ⟨cols_subset_setCol _ _ _ (cols_subset_setCol _ _ _ (by rw [hc2]; exact hQ1)),
    cols_subset_setCol _ _ _ (cols_subset_setCol _ _ _ (by rw [hc2]; exact hQ2))⟩]
  rw [setCol_cols_of_not_mem, setCol_cols_of_not_mem, setCol_cols_of_not_mem,
    setCol_cols_of_not_mem, hc2]
  · simp
  · rw [hc2]; exact hgp
  · simp [mem_setCol_cols, hc2, hgm]
  · simp [mem_setCol_cols, hc2, hst]
  · simp [mem_setCol_cols, hc2, hspr]

/-! Pointwise evaluation of `enrichRow`. -/

theorem enrichRow_src (cols : List Col) (r : Col → Cell) (c : Col)
    (h1 : c ≠ Col.gross_profit) (h2 : c ≠ Col.gross_margin)
    (h3 : c ≠ Col.stock_turnover) (h4 : c ≠ Col.sales_purchase_ratio) :
    enrichRow cols r c = preRow cols r c := by
  simp [enrichRow, assignCell, h1, h2, h3, h4]

theorem enrichRow_gp (cols : List Col) (r : Col → Cell) :
    enrichRow cols r Col.gross_profit =
      csub (preRow cols r Col.total_sales_dollars) (preRow cols r Col.total_dollars) := by
  simp [enrichRow, assignCell]

theorem enrichRow_gm (cols : List Col) (r : Col → Cell) :
    enrichRow cols r Col.gross_margin =
      cdiv (csub (preRow cols r Col.total_sales_dollars) (preRow cols r Col.total_dollars))
        (replace0 (preRow cols r Col.total_sales_dollars)) := by
  simp [enrichRow, assignCell]

theorem enrichRow_st (cols : List Col) (r : Col → Cell) :
    enrichRow cols r Col.stock_turnover =
      cdiv (preRow cols r Col.total_sales_quantity)
        (replace0 (preRow cols r Col.total_quantity)) := by
  simp [enrichRow, assignCell]

theorem enrichRow_spr (cols : List Col) (r : Col → Cell) :
    enrichRow cols r Col.sales_purchase_ratio =
      cdiv (preRow cols r Col.total_sales_dollars)
        (replace0 (preRow cols r Col.total_dollars)) := by
  simp [enrichRow, assignCell]

theorem preRow_of_ne_Volume (cols : List Col) (r : Col → Cell) (c : Col)
    (hv : c ≠ Col.Volume) :
    preRow cols r c = if c ∈ cols ∧ r c = none then some (Value.num 0) else r c := by
  simp [preRow, fillRow, assignCell, hv]

theorem preRow_ne_none_of_mem (cols : List Col) (r : Col → Cell) (c : Col)
    (h : c ∈ cols) : preRow cols r c ≠ none := by
  unfold preRow fillRow
  by_cases hn : assignCell Col.Volume (toNumericCell (r Col.Volume)) r c = none
  · rw [if_pos ⟨h, hn⟩]; simp
  · rw [if_neg (by simp [hn])]; exact hn

theorem preRow_num (cols : List Col) (r : Col → Cell) (c : Col)
    (h : c ∈ cols) (hv : c ≠ Col.Volume) (hn : numCell (r c)) :
    ∃ q, preRow cols r c = some (Value.num q) := by
  rw [preRow_of_ne_Volume _ _ _ hv]
  rcases hn with hn | ⟨q, hq⟩
  · exact ⟨0, by rw [if_pos ⟨h, hn⟩]⟩
  · refine ⟨q, ?_⟩
    rw [hq]
    simp

/-- C6 — the empty-input fast path: the Enricher returns an empty table
unchanged, with no derived columns added and no exception raised. -/
theorem c6_empty_input_noop (df : DataFrame) (h : df.empty = true) :
    clean_vendor_summary df = df := by
  unfold clean_vendor_summary
  rw [if_pos h]

theorem c6_empty_input_noop_witness :
    (DataFrame.mk [] []).empty = true ∧
      clean_vendor_summary (DataFrame.mk [] []) = DataFrame.mk [] [] :=
  ⟨rfl, c6_empty_input_noop (DataFrame.mk [] []) rfl⟩

/-- C2 — every error raised during query execution is caught inside
`create_vendor_summary`, which returns an empty table; no exception
reaches its caller (`create_vendor_summary` is total and its faulty case
yields `[]`, while a successful connection yields the query result). -/
theorem c2_query_error_degrades_to_empty (msg : String) (db : Database) :
    read_sql_query (Conn.faulty msg) = Except.error msg ∧
      create_vendor_summary (Conn.faulty msg) = [] ∧
      create_vendor_summary (Conn.ok db) = vendor_summary_query db :=
  ⟨rfl, rfl, rfl⟩

/-! C1: the zero-divisor guards. -/

/-- A one-row table as the Aggregator produces it: all expected columns
present, `total_sales_dollars = 0` (a no-sales row after the null fill
would look the same), `total_dollars = 50`, `total_sales_quantity = 4`,
`total_quantity = 0`. -/
def sampleRow : Col → Cell
  | Col.Volume => some (Value.num 1)
  | Col.total_sales_dollars => some (Value.num 0)
  | Col.total_dollars => some (Value.num 50)
  | Col.total_sales_quantity => some (Value.num 4)
  | Col.total_quantity => some (Value.num 0)
  | _ => some (Value.num 1)

/-- The 14 columns of the query's SELECT list. -/
def queryCols : List Col :=
  [Col.VendorNumber, Col.VendorName, Col.Brand, Col.PurchasePrice, Col.description,
    Col.Volume, Col.actual_price, Col.total_quantity, Col.total_dollars,
    Col.total_sales_quantity, Col.total_sales_dollars, Col.total_sales_price,
    Col.total_excise_tax, Col.freight_cost]

def sampleDF : DataFrame := DataFrame.mk queryCols [sampleRow]

/-- C1 — counterexample: on a row with `total_sales_dollars = 0` but
`total_dollars = 50 ≠ 0`, the cleaned table's `sales_purchase_ratio` is
the number `0 / 50 = 0`, not null: its divisor is `total_dollars`, so a
zero `total_sales_dollars` does not null it. -/
theorem c1_zero_divisor_counterexample :
    (clean_vendor_summary sampleDF).rows.headI Col.total_sales_dollars
        = some (Value.num 0) ∧
      (clean_vendor_summary sampleDF).rows.headI Col.sales_purchase_ratio
        = some (Value.num 0) := by
  have h : (clean_vendor_summary sampleDF).rows.headI Col.sales_purchase_ratio
      = some (Value.num (0 / 50)) := by rfl
  refine ⟨by rfl, ?_⟩
  rw [h]
  norm_num

/-- C1 (amended) — the zero-divisor guards, per metric: a zero
`total_sales_dollars` nulls `gross_margin`, a zero `total_dollars` nulls
`sales_purchase_ratio`, a zero `total_quantity` nulls `stock_turnover`;
in each case the guarded division yields null, never an error or an
infinity. -/
theorem c1_zero_divisor_guard (df : DataFrame) (hne : df.empty = false)
    (hexp : hasExpected df) :
    ∀ r ∈ (clean_vendor_summary df).rows,
      (r Col.total_sales_dollars = some (Value.num 0) → r Col.gross_margin = none) ∧
        (r Col.total_dollars = some (Value.num 0) → r Col.sales_purchase_ratio = none) ∧
        (r Col.total_quantity = some (Value.num 0) → r Col.stock_turnover = none) := by
  intro r hr
  rw [clean_success_rows df hne hexp] at hr
  obtain ⟨r0, _, rfl⟩ := List.mem_map.mp hr
  refine ⟨fun h => ?_, fun h => ?_, fun h => ?_⟩
  · rw [enrichRow_src _ _ _ (by decide) (by decide) (by decide) (by decide)] at h
    rw [enrichRow_gm, h, replace0_zero, cdiv_none_right]
  · rw [enrichRow_src _ _ _ (by decide) (by decide) (by decide) (by decide)] at h
    rw [enrichRow_spr, h, replace0_zero, cdiv_none_right]
  · rw [enrichRow_src _ _ _ (by decide) (by decide) (by decide) (by decide)] at h
    rw [enrichRow_st, h, replace0_zero, cdiv_none_right]

theorem c1_zero_divisor_guard_witness :
    sampleDF.empty = false ∧
      (∀ r ∈ (clean_vendor_summary sampleDF).rows,
        (r Col.total_sales_dollars = some (Value.num 0) → r Col.gross_margin = none) ∧
          (r Col.total_dollars = some (Value.num 0) → r Col.sales_purchase_ratio = none) ∧
          (r Col.total_quantity = some (Value.num 0) → r Col.stock_turnover = none)) :=
  ⟨rfl, c1_zero_divisor_guard sampleDF rfl
    ⟨by decide, by decide, by decide, by decide, by decide⟩⟩

/-! C5: the fill law; C10: `gross_profit` is total. -/

/-- C5 — after cleaning a non-empty table with all expected columns (its
aggregate columns numeric-or-null, as `SUM`s are, and the derived names
not already taken), no column of the result holds a null except the
three divisor-guarded ratio metrics, and each of those is null exactly
where its divisor is zero. -/
theorem c5_fill_law (df : DataFrame) (hne : df.empty = false)
    (hexp : hasExpected df) (hnum : numericSource df) (hnd : noDerived df) :
    (∀ c ∈ (clean_vendor_summary df).cols, c ≠ Col.gross_margin →
      c ≠ Col.stock_turnover → c ≠ Col.sales_purchase_ratio →
      ∀ r ∈ (clean_vendor_summary df).rows, r c ≠ none) ∧
      ∀ r ∈ (clean_vendor_summary df).rows,
        (r Col.gross_margin = none ↔ r Col.total_sales_dollars = some (Value.num 0)) ∧
          (r Col.stock_turnover = none ↔ r Col.total_quantity = some (Value.num 0)) ∧
          (r Col.sales_purchase_ratio = none ↔ r Col.total_dollars = some (Value.num 0)) := by
  have hVol := hexp.1
  have hS1 := hexp.2.1
  have hS2 := hexp.2.2.1
  have hQ1 := hexp.2.2.2.1
  have hQ2 := hexp.2.2.2.2
  constructor
  · intro c hc h2 h3 h4 r hr
    rw [clean_success_rows df hne hexp] at hr
    obtain ⟨r0, hr0, rfl⟩ := List.mem_map.mp hr
    rw [clean_success_cols df hne hexp hnd] at hc
    rcases List.mem_append.mp hc with hc | hc
    · have h1 : c ≠ Col.gross_profit := fun he => hnd.1 (he ▸ hc)
      rw [enrichRow_src _ _ _ h1 h2 h3 h4]
      exact preRow_ne_none_of_mem _ _ _ hc
    · have h1 : c = Col.gross_profit := by
        simp only [List.mem_cons, List.not_mem_nil, or_false] at hc
        rcases hc with h | h | h | h
        · exact h
        · exact absurd h h2
        · exact absurd h h3
        · exact absurd h h4
      subst h1
      rw [enrichRow_gp]
      obtain ⟨s, hs⟩ := preRow_num df.cols r0 Col.total_sales_dollars hS1 (by decide)
        ((hnum r0 hr0).1)
      obtain ⟨d, hd⟩ := preRow_num df.cols r0 Col.total_dollars hS2 (by decide)
        ((hnum r0 hr0).2.1)
      rw [hs, hd]
      simp [csub]
  · intro r hr
    rw [clean_success_rows df hne hexp] at hr
    obtain ⟨r0, hr0, rfl⟩ := List.mem_map.mp hr
    obtain ⟨s, hs⟩ := preRow_num df.cols r0 Col.total_sales_dollars hS1 (by decide)
      ((hnum r0 hr0).1)
    obtain ⟨d, hd⟩ := preRow_num df.cols r0 Col.total_dollars hS2 (by decide)
      ((hnum r0 hr0).2.1)
    obtain ⟨sq, hsq⟩ := preRow_num df.cols r0 Col.total_sales_quantity hQ1 (by decide)
      ((hnum r0 hr0).2.2.1)
    obtain ⟨tq, htq⟩ := preRow_num df.cols r0 Col.total_quantity hQ2 (by decide)
      ((hnum r0 hr0).2.2.2)
    have etsd : enrichRow df.cols r0 Col.total_sales_dollars = some (Value.num s) := by
      rw [enrichRow_src _ _ _ (by decide) (by decide) (by decide) (by decide)]; exact hs
    have etd : enrichRow df.cols r0 Col.total_dollars = some (Value.num d) := by
      rw [enrichRow_src _ _ _ (by decide) (by decide) (by decide) (by decide)]; exact hd
    have etq : enrichRow df.cols r0 Col.total_quantity = some (Value.num tq) := by
      rw [enrichRow_src _ _ _ (by decide) (by decide) (by decide) (by decide)]; exact htq
    refine ⟨?_, ?_, ?_⟩
    · rw [enrichRow_gm, hs, hd, etsd]
      by_cases hs0 : s = 0
      · subst hs0
        rw [replace0_zero, cdiv_none_right]
        simp
      · rw [replace0_num_ne _ hs0]
        simp [csub, cdiv, hs0]
    · rw [enrichRow_st, hsq, htq, etq]
      by_cases hq0 : tq = 0
      · subst hq0
        rw [replace0_zero, cdiv_none_right]
        simp
      · rw [replace0_num_ne _ hq0]
        simp [cdiv, hq0]
    · rw [enrichRow_spr, hs, hd, etd]
      by_cases hd0 : d = 0
      · subst hd0
        rw [replace0_zero, cdiv_none_right]
        simp
      · rw [replace0_num_ne _ hd0]
        simp [cdiv, hd0]

theorem c5_fill_law_witness :
    numericSource sampleDF ∧
      ((∀ c ∈ (clean_vendor_summary sampleDF).cols, c ≠ Col.gross_margin →
        c ≠ Col.stock_turnover → c ≠ Col.sales_purchase_ratio →
        ∀ r ∈ (clean_vendor_summary sampleDF).rows, r c ≠ none) ∧
        ∀ r ∈ (clean_vendor_summary sampleDF).rows,
          (r Col.gross_margin = none ↔ r Col.total_sales_dollars = some (Value.num 0)) ∧
            (r Col.stock_turnover = none ↔ r Col.total_quantity = some (Value.num 0)) ∧
            (r Col.sales_purchase_ratio = none ↔ r Col.total_dollars = some (Value.num 0))) := by
  have hnum : numericSource sampleDF := by
    intro r hr
    rw [List.mem_singleton.mp hr]
    exact ⟨Or.inr ⟨0, rfl⟩, Or.inr ⟨50, rfl⟩, Or.inr ⟨4, rfl⟩, Or.inr ⟨0, rfl⟩⟩
  exact ⟨hnum, c5_fill_law sampleDF rfl
    ⟨by decide, by decide, by decide, by decide, by decide⟩ hnum
    ⟨by decide, by decide, by decide, by decide⟩⟩

/-- C10 — after successful enrichment, `gross_profit` is never null: it
is the difference of the post-fill `total_sales_dollars` and
`total_dollars` on every row, and on a row whose post-fill
`total_sales_dollars` is zero (a no-sales row) it is the negation of
`total_dollars`. -/
theorem c10_gross_profit_total (df : DataFrame) (hne : df.empty = false)
    (hexp : hasExpected df) (hnum : numericSource df) :
    ∀ r ∈ (clean_vendor_summary df).rows, ∃ s d : ℚ,
      r Col.total_sales_dollars = some (Value.num s) ∧
        r Col.total_dollars = some (Value.num d) ∧
        r Col.gross_profit = some (Value.num (s - d)) ∧
        (s = 0 → r Col.gross_profit = some (Value.num (-d))) := by
  intro r hr
  rw [clean_success_rows df hne hexp] at hr
  obtain ⟨r0, hr0, rfl⟩ := List.mem_map.mp hr
  obtain ⟨s, hs⟩ := preRow_num df.cols r0 Col.total_sales_dollars hexp.2.1 (by decide)
    ((hnum r0 hr0).1)
  obtain ⟨d, hd⟩ := preRow_num df.cols r0 Col.total_dollars hexp.2.2.1 (by decide)
    ((hnum r0 hr0).2.1)
  refine ⟨s, d, ?_, ?_, ?_, ?_⟩
  · rw [enrichRow_src _ _ _ (by decide) (by decide) (by decide) (by decide)]; exact hs
  · rw [enrichRow_src _ _ _ (by decide) (by decide) (by decide) (by decide)]; exact hd
  · rw [enrichRow_gp, hs, hd]; simp [csub]
  · intro h0
    rw [enrichRow_gp, hs, hd, h0]
    simp [csub]

theorem c10_gross_profit_total_witness :
    sampleDF.empty = false ∧
      ∀ r ∈ (clean_vendor_summary sampleDF).rows, ∃ s d : ℚ,
        r Col.total_sales_dollars = some (Value.num s) ∧
          r Col.total_dollars = some (Value.num d) ∧
          r Col.gross_profit = some (Value.num (s - d)) ∧
          (s = 0 → r Col.gross_profit = some (Value.num (-d))) :=
  ⟨rfl, c10_gross_profit_total sampleDF rfl
    ⟨by decide, by decide, by decide, by decide, by decide⟩
    (by
      intro r hr
      rw [List.mem_singleton.mp hr]
      exact ⟨Or.inr ⟨0, rfl⟩, Or.inr ⟨50, rfl⟩, Or.inr ⟨4, rfl⟩, Or.inr ⟨0, rfl⟩⟩)⟩

/-! The Enricher's `KeyError` paths. -/

theorem mem_setCol_cols_ne (df : DataFrame) (c c2 : Col) (f : (Col → Cell) → Cell)
    (h : c ≠ c2) : c ∈ (setCol df c2 f).cols ↔ c ∈ df.cols := by
  rw [mem_setCol_cols]
  simp [h]

/-- With `Volume` absent, the `KeyError` of line 122 fires before any
assignment: the input comes back untouched. -/
theorem clean_missing_volume (df : DataFrame) (hne : df.empty = false)
    (hV : Col.Volume ∉ df.cols) : clean_vendor_summary df = df := by
  unfold clean_vendor_summary
  rw [if_neg (by simp [hne]), if_neg hV]

/-- With `total_sales_dollars` or `total_dollars` absent, the `KeyError`
of line 126 fires after the coercion and the fill. -/
theorem clean_missing_sales (df : DataFrame) (hne : df.empty = false)
    (hV : Col.Volume ∈ df.cols)
    (hS : ¬(Col.total_sales_dollars ∈ df.cols ∧ Col.total_dollars ∈ df.cols)) :
    clean_vendor_summary df =
      fillna0 (setCol df Col.Volume fun r => toNumericCell (r Col.Volume)) := by
  unfold clean_vendor_summary
  rw [if_neg (by simp [hne]), if_pos hV]
  rw [if_neg (by rw [fillna0_cols, setCol_cols_of_mem _ _ _ hV]; exact hS)]

/-- With `total_sales_quantity` or `total_quantity` absent, the
`KeyError` of line 130 fires after `gross_profit` and `gross_margin`
were assigned. -/
theorem clean_missing_qty (df : DataFrame) (hne : df.empty = false)
    (hV : Col.Volume ∈ df.cols)
    (hS : Col.total_sales_dollars ∈ df.cols ∧ Col.total_dollars ∈ df.cols)
    (hQ : ¬(Col.total_sales_quantity ∈ df.cols ∧ Col.total_quantity ∈ df.cols)) :
    clean_vendor_summary df =
      setCol (setCol (fillna0 (setCol df Col.Volume fun r => toNumericCell (r Col.Volume)))
          Col.gross_profit fun r => csub (r Col.total_sales_dollars) (r Col.total_dollars))
        Col.gross_margin fun r =>
          cdiv (r Col.gross_profit) (replace0 (r Col.total_sales_dollars)) := by
  unfold clean_vendor_summary
  rw [if_neg (by simp [hne]), if_pos hV]
  have hc2 : (fillna0 (setCol df Col.Volume fun r => toNumericCell (r Col.Volume))).cols
      = df.cols := by
    rw [fillna0_cols, setCol_cols_of_mem _ _ _ hV]
  rw [if_pos (by rw [hc2]; exact hS)]
  rw [if_neg (by
    intro hcon
    apply hQ
    constructor
    · have h1 := hcon.1
      rw [mem_setCol_cols, mem_setCol_cols, hc2] at h1
      rcases h1 with (h1 | h1) | h1
      · exact h1
      · exact absurd h1 (by decide)
      · exact absurd h1 (by decide)
    · have h1 := hcon.2
      rw [mem_setCol_cols, mem_setCol_cols, hc2] at h1
      rcases h1 with (h1 | h1) | h1
      · exact h1
      · exact absurd h1 (by decide)
      · exact absurd h1 (by decide))]

/-! C3: a missing expected column. -/

/-- A non-empty table with `Volume` present but `total_sales_dollars`
missing, and a null `freight_cost` cell. -/
def exC3row : Col → Cell
  | Col.freight_cost => none
  | _ => some (Value.num 1)

def exC3df : DataFrame :=
  DataFrame.mk [Col.Volume, Col.total_dollars, Col.freight_cost] [exC3row]

/-- C3 — counterexample: with `total_sales_dollars` missing, the
Enricher does return without an exception, but not the input data
unchanged: the already-executed `fillna(0, inplace=True)` has turned the
null `freight_cost` cell into the number 0 on the returned table. -/
theorem c3_missing_column_counterexample :
    exC3df.empty = false ∧ Col.total_sales_dollars ∉ exC3df.cols ∧
      exC3df.rows.headI Col.freight_cost = none ∧
      (clean_vendor_summary exC3df).rows.headI Col.freight_cost = some (Value.num 0) := by
  refine ⟨rfl, by decide, rfl, ?_⟩
  rfl

/-- C3 (amended) — a missing expected column is caught: no exception
crosses the boundary, the Enricher returns a table with the same row
count, all original columns, and the derived columns whose computation
was not reached absent (at least `sales_purchase_ratio`); the rows,
however, are not necessarily the unchanged input — only when the very
first read (`Volume`) fails is the table returned exactly as-is. -/
theorem c3_missing_column_partial (df : DataFrame) (hne : df.empty = false)
    (hnd : noDerived df) (hmiss : ¬ hasExpected df) :
    Col.sales_purchase_ratio ∉ (clean_vendor_summary df).cols ∧
      (clean_vendor_summary df).rows.length = df.rows.length ∧
      df.cols ⊆ (clean_vendor_summary df).cols ∧
      (Col.Volume ∉ df.cols → clean_vendor_summary df = df) := by
  by_cases hV : Col.Volume ∈ df.cols
  · by_cases hS : Col.total_sales_dollars ∈ df.cols ∧ Col.total_dollars ∈ df.cols
    · by_cases hQ : Col.total_sales_quantity ∈ df.cols ∧ Col.total_quantity ∈ df.cols
      · exact absurd ⟨hV, hS.1, hS.2, hQ.1, hQ.2⟩ hmiss
      · have he := clean_missing_qty df hne hV hS hQ
        rw [he]
        refine ⟨?_, ?_, ?_, fun h => absurd hV h⟩
        · intro hcon
          rw [mem_setCol_cols, mem_setCol_cols, fillna0_cols,
            setCol_cols_of_mem _ _ _ hV] at hcon
          rcases hcon with (h1 | h1) | h1
          · exact hnd.2.2.2 h1
          · exact absurd h1 (by decide)
          · exact absurd h1 (by decide)
        · simp
        · intro x hx
          have hx2 : x ∈ (fillna0 (setCol df Col.Volume
              fun r => toNumericCell (r Col.Volume))).cols := by
            rw [fillna0_cols, setCol_cols_of_mem _ _ _ hV]
            exact hx
          exact cols_subset_setCol _ _ _ (cols_subset_setCol _ _ _ hx2)
    · have he := clean_missing_sales df hne hV hS
      rw [he]
      refine ⟨?_, by simp, ?_, fun h => absurd hV h⟩
      · rw [fillna0_cols, setCol_cols_of_mem _ _ _ hV]
        exact hnd.2.2.2
      · intro x hx
        rw [fillna0_cols, setCol_cols_of_mem _ _ _ hV]
        exact hx
  · have he := clean_missing_volume df hne hV
    rw [he]
    exact ⟨hnd.2.2.2, rfl, fun _ h => h, fun _ => rfl⟩

theorem c3_missing_column_partial_witness :
    exC3df.empty = false ∧
      (Col.sales_purchase_ratio ∉ (clean_vendor_summary exC3df).cols ∧
        (clean_vendor_summary exC3df).rows.length = exC3df.rows.length ∧
        exC3df.cols ⊆ (clean_vendor_summary exC3df).cols ∧
        (Col.Volume ∉ exC3df.cols → clean_vendor_summary exC3df = exC3df)) :=
  ⟨rfl, c3_missing_column_partial exC3df rfl
    ⟨by decide, by decide, by decide, by decide⟩
    (fun h => absurd h.2.1 (by decide))⟩

/-! C9: the Enricher's updates are applied to the table it returns, on
every path that passes the first column read — the in-place mutation is
observable on the returned rows. -/

theorem forall2_map_left {α β : Type} (f : α → β) (R : β → α → Prop) (l : List α)
    (h : ∀ x ∈ l, R (f x) x) : List.Forall₂ R (l.map f) l := by
  induction l with
  | nil => constructor
  | cons a t ih =>
    exact List.Forall₂.cons (h a (List.mem_cons_self a t))
      (ih fun x hx => h x (List.mem_cons_of_mem a hx))

/-- C9 — for every non-empty input whose `Volume` column exists (and
whose derived names are not already taken), each returned row agrees on
every input column with the input row after `Volume` coercion and the
null fill: the in-place coercion and fill survive onto the returned
table on the success path and on both later `KeyError` paths, so the
caller's original table does not come back unmodified. -/
theorem c9_inplace_mutation (df : DataFrame) (hne : df.empty = false)
    (hV : Col.Volume ∈ df.cols) (hnd : noDerived df) :
    List.Forall₂ (fun r2 r => ∀ c ∈ df.cols, r2 c = preRow df.cols r c)
      (clean_vendor_summary df).rows df.rows := by
  by_cases hS : Col.total_sales_dollars ∈ df.cols ∧ Col.total_dollars ∈ df.cols
  · by_cases hQ : Col.total_sales_quantity ∈ df.cols ∧ Col.total_quantity ∈ df.cols
    · rw [clean_success_rows df hne ⟨hV, hS.1, hS.2, hQ.1, hQ.2⟩]
      apply forall2_map_left
      intro r0 _ c hc
      exact enrichRow_src df.cols r0 c (fun he => hnd.1 (he ▸ hc))
        (fun he => hnd.2.1 (he ▸ hc)) (fun he => hnd.2.2.1 (he ▸ hc))
        (fun he => hnd.2.2.2 (he ▸ hc))
    · rw [clean_missing_qty df hne hV hS hQ]
      simp only [setCol_rows, fillna0_rows, List.map_map]
      apply forall2_map_left
      intro r0 _ c hc
      simp only [Function.comp_apply]
      rw [assignCell_ne Col.gross_margin c _ _ (fun he => hnd.2.1 (he ▸ hc)),
        assignCell_ne Col.gross_profit c _ _ (fun he => hnd.1 (he ▸ hc)),
        setCol_cols_of_mem _ _ _ hV]
      rfl
  · rw [clean_missing_sales df hne hV hS]
    simp only [fillna0_rows, setCol_rows, List.map_map]
    apply forall2_map_left
    intro r0 _ c hc
    simp only [Function.comp_apply]
    rw [setCol_cols_of_mem _ _ _ hV]
    rfl

/-- A table missing `total_sales_quantity` and `total_quantity`, with a
null `Volume` and a null `total_dollars` cell. -/
def exC9row : Col → Cell
  | Col.Volume => none
  | Col.total_dollars => none
  | _ => some (Value.num 3)

def exC9df : DataFrame :=
  DataFrame.mk [Col.Volume, Col.total_sales_dollars, Col.total_dollars, Col.freight_cost]
    [exC9row]

theorem c9_inplace_mutation_witness :
    List.Forall₂ (fun r2 r => ∀ c ∈ exC9df.cols, r2 c = preRow exC9df.cols r c)
      (clean_vendor_summary exC9df).rows exC9df.rows :=
  c9_inplace_mutation exC9df rfl (by decide)
    ⟨by decide, by decide, by decide, by decide⟩

/-! Lemmas about grouping (`firstByKey`) and the joined purchase rows. -/

theorem firstByKey_nil {α κ : Type} [DecidableEq κ] (k : α → κ) :
    firstByKey [] k = [] := by
  rw [firstByKey]

theorem firstByKey_cons {α κ : Type} [DecidableEq κ] (x : α) (xs : List α) (k : α → κ) :
    firstByKey (x :: xs) k = x :: firstByKey (xs.filter fun y => k y ≠ k x) k := by
  rw [firstByKey]

theorem mem_of_mem_firstByKey {α κ : Type} [DecidableEq κ] (l : List α) (k : α → κ) :
    ∀ x ∈ firstByKey l k, x ∈ l := by
  induction l, k using firstByKey.induct with
  | case1 k => simp [firstByKey_nil]
  | case2 x xs k ih =>
    intro y hy
    rw [firstByKey_cons] at hy
    rcases List.mem_cons.mp hy with rfl | hy
    · exact List.mem_cons_self _ _
    · exact List.mem_cons_of_mem _ (List.mem_of_mem_filter (ih y hy))

theorem firstByKey_keys_nodup {α κ : Type} [DecidableEq κ] (l : List α) (k : α → κ) :
    ((firstByKey l k).map k).Nodup := by
  induction l, k using firstByKey.induct with
  | case1 k => simp [firstByKey_nil]
  | case2 x xs k ih =>
    rw [firstByKey_cons, List.map_cons, List.nodup_cons]
    refine ⟨?_, ih⟩
    intro hmem
    obtain ⟨y, hy, hky⟩ := List.mem_map.mp hmem
    have hyf := mem_of_mem_firstByKey _ _ y hy
    have := List.of_mem_filter hyf
    simp only [decide_eq_true_eq] at this
    exact this hky

theorem card_insert_erase {κ : Type} [DecidableEq κ] (a : κ) (S : Finset κ) :
    (insert a S).card = (S.erase a).card + 1 := by
  by_cases h : a ∈ S
  · rw [Finset.insert_eq_self.mpr h, ← Finset.card_erase_add_one h]
  · rw [Finset.card_insert_of_not_mem h, Finset.erase_eq_of_not_mem h]

theorem filter_key_toFinset_erase {α κ : Type} [DecidableEq κ] (x : α) (xs : List α)
    (k : α → κ) :
    ((xs.filter fun y => k y ≠ k x).map k).toFinset = ((xs.map k).toFinset).erase (k x) := by
  ext a
  simp only [List.mem_toFinset, List.mem_map, List.mem_filter, decide_eq_true_eq,
    Finset.mem_erase]
  constructor
  · rintro ⟨y, ⟨hy, hne⟩, rfl⟩
    exact ⟨hne, y, hy, rfl⟩
  · rintro ⟨hne, y, hy, rfl⟩
    exact ⟨y, ⟨hy, hne⟩, rfl⟩

theorem firstByKey_length {α κ : Type} [DecidableEq κ] (l : List α) (k : α → κ) :
    (firstByKey l k).length = (l.map k).toFinset.card := by
  induction l, k using firstByKey.induct with
  | case1 k => simp [firstByKey_nil]
  | case2 x xs k ih =>
    rw [firstByKey_cons, List.length_cons, ih, List.map_cons, List.toFinset_cons,
      card_insert_erase, filter_key_toFinset_erase]

theorem exists_firstByKey_key {α κ : Type} [DecidableEq κ] (l : List α) (k : α → κ) :
    ∀ a ∈ l, ∃ x ∈ firstByKey l k, k x = k a := by
  induction l, k using firstByKey.induct with
  | case1 k => simp
  | case2 x xs k ih =>
    intro a ha
    rcases List.mem_cons.mp ha with rfl | ha
    · exact ⟨a, by rw [firstByKey_cons]; exact List.mem_cons_self _ _, rfl⟩
    · by_cases hk : k a = k x
      · exact ⟨x, by rw [firstByKey_cons]; exact List.mem_cons_self _ _, hk.symm⟩
      · have haf : a ∈ xs.filter fun y => k y ≠ k x :=
          List.mem_filter.mpr ⟨ha, by simpa using hk⟩
        obtain ⟨y, hy, hky⟩ := ih a haf
        exact ⟨y, by rw [firstByKey_cons]; exact List.mem_cons_of_mem _ hy, hky⟩

theorem mem_joined (db : Database) (p : PurchaseRow) (pp : PriceRow) :
    (p, pp) ∈ joined db ↔
      p ∈ db.purchases ∧ pp ∈ db.purchase_prices ∧ pp.Brand = p.Brand ∧
        0 < p.PurchasePrice := by
  simp only [joined, List.mem_filter, List.mem_flatMap, List.mem_map, decide_eq_true_eq,
    Prod.mk.injEq]
  constructor
  · rintro ⟨⟨p2, hp2, pp2, ⟨hpp2, hbr2⟩, rfl, rfl⟩, hpos⟩
    exact ⟨hp2, hpp2, hbr2, hpos⟩
  · rintro ⟨hp, hpp, hbr, hpos⟩
    exact ⟨⟨p, hp, pp, ⟨hpp, hbr⟩, rfl, rfl⟩, hpos⟩

/-! C4: the Aggregator's row count. -/

/-- A purchase row that contributes to the output: strictly positive
purchase price and at least one matching price-reference row for its
brand. -/
def qualifies (db : Database) (p : PurchaseRow) : Bool :=
  decide (0 < p.PurchasePrice) && db.purchase_prices.any fun pp => decide (pp.Brand = p.Brand)

/-- The count the claim states: distinct (vendor number, brand) pairs
among the qualifying purchase rows.  (Stated from the claim's words, to
be compared with what the query produces.) -/
def claimedPairCount (db : Database) : ℕ :=
  ((db.purchases.filter (qualifies db)).map fun p => (p.VendorNumber, p.Brand)).toFinset.card

/-- The count the query actually produces: distinct
(vendor number, vendor name, brand) triples among the qualifying
purchase rows — the GROUP BY key of `purchase_summary` includes
`VendorName`. -/
def qualTripleCount (db : Database) : ℕ :=
  ((db.purchases.filter (qualifies db)).map
    fun p => (p.VendorNumber, p.VendorName, p.Brand)).toFinset.card

theorem joined_keys_toFinset (db : Database) :
    ((joined db).map pKey).toFinset =
      ((db.purchases.filter (qualifies db)).map
        fun p => (p.VendorNumber, p.VendorName, p.Brand)).toFinset := by
  ext a
  simp only [List.mem_toFinset, List.mem_map, List.mem_filter, qualifies,
    Bool.and_eq_true, decide_eq_true_eq, List.any_eq_true]
  constructor
  · rintro ⟨⟨p, pp⟩, hx, rfl⟩
    rw [mem_joined] at hx
    exact ⟨p, ⟨hx.1, hx.2.2.2, pp, hx.2.1, hx.2.2.1⟩, rfl⟩
  · rintro ⟨p, ⟨hp, hpos, pp, hpp, hbr⟩, rfl⟩
    exact ⟨(p, pp), (mem_joined db p pp).mpr ⟨hp, hpp, hbr, hpos⟩, rfl⟩

theorem purchase_summary_length (db : Database) :
    (purchase_summary db).length = ((joined db).map pKey).toFinset.card := by
  rw [purchase_summary, List.length_map]
  exact firstByKey_length _ _

/-- The two-name counterexample store: one vendor number carrying two
different vendor names for the same brand. -/
def exDB4 : Database where
  purchases :=
    [{ VendorNumber := 1, VendorName := "Alice", Brand := 1, PurchasePrice := 1,
       description := "d", Quantity := 1, Dollars := 1 },
     { VendorNumber := 1, VendorName := "Bob", Brand := 1, PurchasePrice := 1,
       description := "d", Quantity := 1, Dollars := 1 }]
  purchase_prices := [{ Brand := 1, Volume := Value.num 1, Price := 1 }]
  sales := []
  vendor_invoice := []

/-- C4 — counterexample: with one (vendor, brand) pair spread over two
vendor names, the query returns two rows (its GROUP BY key includes the
vendor name) while the claim's count of distinct (vendor, brand) pairs
is one. -/
theorem c4_row_count_counterexample :
    (vendor_summary_query exDB4).length ≠ claimedPairCount exDB4 := by
  have h1 : (vendor_summary_query exDB4).length = 2 := by
    rw [vendor_summary_query, List.length_map,
      (List.perm_insertionSort psLe (purchase_summary exDB4)).length_eq,
      purchase_summary_length]
    decide
  have h2 : claimedPairCount exDB4 = 1 := by decide
  rw [h1, h2]
  decide

/-- C4 (amended) — the Aggregator's output has exactly one row per
distinct (vendor number, vendor name, brand) triple with at least one
purchase row with purchase price > 0 and a matching price-reference
row; its row count equals the number of such triples (the GROUP BY key
includes the vendor name, so a vendor number appearing under two names
yields one row per name). -/
theorem c4_row_count (db : Database) :
    (vendor_summary_query db).length = qualTripleCount db ∧
      ((vendor_summary_query db).map
        fun r => (r.VendorNumber, r.VendorName, r.Brand)).Nodup := by
  constructor
  · rw [vendor_summary_query, List.length_map,
      (List.perm_insertionSort psLe (purchase_summary db)).length_eq,
      purchase_summary_length, joined_keys_toFinset]
    rfl
  · have hperm := (List.perm_insertionSort psLe (purchase_summary db)).map
      fun r : PSRow => (r.VendorNumber, r.VendorName, r.Brand)
    rw [vendor_summary_query, List.map_map]
    show (List.map (fun r : PSRow => (r.VendorNumber, r.VendorName, r.Brand))
      (List.insertionSort psLe (purchase_summary db))).Nodup
    rw [List.Perm.nodup_iff hperm]
    simp only [purchase_summary, List.map_map]
    show ((firstByKey (joined db) pKey).map pKey).Nodup
    exact firstByKey_keys_nodup (joined db) pKey

/-! C7: LEFT JOIN nullability; C8: output order. -/

theorem sales_lookup_eq_none (db : Database) (v b : ℤ)
    (h : ∀ s ∈ db.sales, ¬(s.VendorNo = v ∧ s.Brand = b)) :
    sales_lookup db v b = none := by
  have hnil : (db.sales.filter fun s => s.VendorNo = v ∧ s.Brand = b) = [] := by
    rw [List.filter_eq_nil_iff]
    intro s hs
    simpa using h s hs
  simp only [sales_lookup]
  rw [hnil]
  rfl

theorem freight_lookup_eq_none (db : Database) (v : ℤ)
    (h : ∀ f ∈ db.vendor_invoice, f.vendorNumber ≠ v) :
    freight_lookup db v = none := by
  have hnil : (db.vendor_invoice.filter fun f => f.vendorNumber = v) = [] := by
    rw [List.filter_eq_nil_iff]
    intro f hf
    simpa using h f hf
  simp only [freight_lookup]
  rw [hnil]
  rfl

/-- C7 — left-join nullability: every (vendor, brand) key with a
qualifying purchase row but no sales rows still yields an output row,
whose four sales aggregates are null; and every output row whose vendor
has no invoice rows carries a null freight cost. -/
theorem c7_left_join_nullability (db : Database) :
    (∀ p ∈ db.purchases, 0 < p.PurchasePrice →
      (∃ pp ∈ db.purchase_prices, pp.Brand = p.Brand) →
      (∀ s ∈ db.sales, ¬(s.VendorNo = p.VendorNumber ∧ s.Brand = p.Brand)) →
      ∃ r ∈ vendor_summary_query db, r.VendorNumber = p.VendorNumber ∧
        r.Brand = p.Brand ∧ r.total_sales_quantity = none ∧
        r.total_sales_dollars = none ∧ r.total_sales_price = none ∧
        r.total_excise_tax = none) ∧
      ∀ r ∈ vendor_summary_query db,
        (∀ f ∈ db.vendor_invoice, f.vendorNumber ≠ r.VendorNumber) →
        r.freight_cost = none := by
  constructor
  · rintro p hp hpos ⟨pp, hpp, hbr⟩ hnosales
    have hj : (p, pp) ∈ joined db := (mem_joined db p pp).mpr ⟨hp, hpp, hbr, hpos⟩
    obtain ⟨x, hxf, hkx⟩ := exists_firstByKey_key (joined db) pKey (p, pp) hj
    obtain ⟨hv, hn, hb⟩ : x.1.VendorNumber = p.VendorNumber ∧
        x.1.VendorName = p.VendorName ∧ x.1.Brand = p.Brand := by
      have h1 := congrArg Prod.fst hkx
      have h2 := congrArg (fun t => t.2.1) hkx
      have h3 := congrArg (fun t => t.2.2) hkx
      exact ⟨h1, h2, h3⟩
    have hpsm : psRowOf (joined db) x ∈ purchase_summary db := by
      rw [purchase_summary]
      exact List.mem_map_of_mem _ hxf
    have hnone : sales_lookup db x.1.VendorNumber x.1.Brand = none := by
      apply sales_lookup_eq_none
      rw [hv, hb]
      exact hnosales
    refine ⟨combine db (psRowOf (joined db) x), ?_, hv, hb, ?_, ?_, ?_, ?_⟩
    · rw [vendor_summary_query]
      exact List.mem_map_of_mem _
        (((List.perm_insertionSort psLe (purchase_summary db)).mem_iff).mpr hpsm)
    all_goals simp [combine, psRowOf, hnone]
  · intro r hr hnof
    rw [vendor_summary_query] at hr
    obtain ⟨ps, _, rfl⟩ := List.mem_map.mp hr
    have hnone : freight_lookup db ps.VendorNumber = none := by
      apply freight_lookup_eq_none
      exact hnof
    simp [combine, hnone]

/-- One qualifying purchase, no sales rows, no invoice rows. -/
def exDB7 : Database where
  purchases :=
    [{ VendorNumber := 7, VendorName := "V", Brand := 3, PurchasePrice := 10,
       description := "d", Quantity := 5, Dollars := 50 }]
  purchase_prices := [{ Brand := 3, Volume := Value.num 1, Price := 12 }]
  sales := []
  vendor_invoice := []

theorem c7_left_join_nullability_witness :
    (∃ r ∈ vendor_summary_query exDB7, r.VendorNumber = 7 ∧ r.Brand = 3 ∧
      r.total_sales_quantity = none ∧ r.total_sales_dollars = none ∧
      r.total_sales_price = none ∧ r.total_excise_tax = none) ∧
      ∀ r ∈ vendor_summary_query exDB7,
        (∀ f ∈ exDB7.vendor_invoice, f.vendorNumber ≠ r.VendorNumber) →
        r.freight_cost = none := by
  constructor
  · exact (c7_left_join_nullability exDB7).1
      { VendorNumber := 7, VendorName := "V", Brand := 3, PurchasePrice := 10,
        description := "d", Quantity := 5, Dollars := 50 }
      (by simp [exDB7]) (by norm_num)
      ⟨{ Brand := 3, Volume := Value.num 1, Price := 12 }, by simp [exDB7], rfl⟩
      (by simp [exDB7])
  · exact (c7_left_join_nullability exDB7).2

/-- C8 — the Aggregator's output is sorted ascending by
(vendor number, brand): consecutive rows satisfy the lexicographic
comparison `ORDER BY p.VendorNumber, p.Brand` imposes. -/
theorem c8_output_sorted (db : Database) :
    List.Pairwise (fun r1 r2 : SummaryRow =>
      r1.VendorNumber < r2.VendorNumber ∨
        (r1.VendorNumber = r2.VendorNumber ∧ r1.Brand ≤ r2.Brand))
      (vendor_summary_query db) := by
  rw [vendor_summary_query, List.pairwise_map]
  have hs : List.Sorted psLe (List.insertionSort psLe (purchase_summary db)) :=
    List.sorted_insertionSort psLe (purchase_summary db)
  refine hs.imp ?_
  intro a b hab
  exact (Prod.Lex.le_iff (a.VendorNumber, a.Brand) (b.VendorNumber, b.Brand)).mp hab
